import Mathlib

/-!
Shallow embedding of the arguments_parser crate (src/lib.rs).

Rust strings are modelled as lists of characters (the source walks them
through chars()); isize is modelled as Int together with the 64-bit range
check that isize::from_str performs.  The interior mutability of the value
handlers (Cell / RefCell contents shared through borrows) is modelled by an
arena: a list of handler states indexed by Nat, threaded through the
scanner, following the arena-plus-index pattern described in the design
notes of the specification.
-/

abbrev Str : Type := List Char

/-- One decimal digit of a character, as used by Rust integer parsing. -/
def digitVal (c : Char) : Option Nat :=
  if c.isDigit then some (c.toNat - '0'.toNat) else none

def parseDigitsAux (acc : Nat) : Str → Option Nat
  | [] => some acc
  | c :: cs =>
    match digitVal c with
    | some d => parseDigitsAux (acc * 10 + d) cs
    | none => none

/-- A nonempty all-digit run, as consumed by isize::from_str after the
optional sign. -/
def parseDigits : Str → Option Nat
  | [] => none
  | cs => parseDigitsAux 0 cs

/-- The integer denoted by a decimal integer string (optional sign followed
by digits), ignoring any machine range: the grammar part of
isize::from_str. -/
def decimalInt (s : Str) : Option Int :=
  match s with
  | [] => none
  | c :: rest =>
    if c = '+' then (parseDigits rest).map (fun n => (n : Int))
    else if c = '-' then (parseDigits rest).map (fun n => -(n : Int))
    else (parseDigits (c :: rest)).map (fun n => (n : Int))

def isize_min : Int := -(2 ^ 63)

def isize_max : Int := 2 ^ 63 - 1

/-- isize::from_str: decimal integer grammar plus the 64-bit range check
(out-of-range literals are rejected, not wrapped). -/
def fromStr (s : Str) : Option Int :=
  match decimalInt s with
  | some v => if isize_min ≤ v ∧ v ≤ isize_max then some v else none
  | none => none

/-- Two's-complement wrap-around of a 64-bit signed result (release-profile
overflow semantics of the multiplication in SizeParameter); identity on
every in-range value. -/
def wrap64 (v : Int) : Int :=
  (v + 2 ^ 63) % 2 ^ 64 - 2 ^ 63

def in_isize (v : Int) : Prop := isize_min ≤ v ∧ v ≤ isize_max

instance (v : Int) : Decidable (in_isize v) := by
  unfold in_isize; infer_instance

/-- The five ValueHandler implementations; each constructor carries the
handler's configuration and its current state (the Cell / RefCell contents
in the source).  EnumParameter's HashSet of allowed values is modelled by a
list queried only through membership. -/
inductive Param : Type where
  | int (validator : Int → Bool) (value : Int)
  | size (validator : Int → Bool) (value : Int)
  | string (value : Str)
  | enum (values : List Str) (value : Str)
  | bool (value : Bool)

/-- Rust value.chars().last() on a nonempty string (the empty case is
guarded before every use, as in the source). -/
def last_char : Str → Char
  | [] => ' '
  | [c] => c
  | _ :: cs => last_char cs

/-- ValueHandler::parse_value of each variant: the returned Bool is the
commit flag, the returned Param is the handler state afterwards. -/
def Param.parse_value : Param → Str → Bool × Param
  | .int f v, s =>
    match fromStr s with
    | some n => if f n then (true, .int f n) else (false, .int f v)
    | none => (false, .int f v)
  | .string _, s => (true, .string s)
  | .enum vs v, s =>
    if s ∈ vs then (true, .enum vs s) else (false, .enum vs v)
  | .bool v, _ => (false, .bool v)
  | .size f v, s =>
    if s = [] then (false, .size f v)
    else
      let multiplier : Int :=
        if last_char s = 'M' then 1024 * 1024
        else if last_char s = 'K' then 1024
        else if last_char s = 'G' then 1024 * 1024 * 1024
        else 1
      match (if multiplier = 1 then fromStr s else fromStr s.dropLast) with
      | some sz =>
        if f (wrap64 (sz * multiplier)) then (true, .size f (wrap64 (sz * multiplier)))
        else (false, .size f v)
      | none => (false, .size f v)

def Param.requires_value : Param → Bool
  | .bool _ => false
  | _ => true

def Param.set_value : Param → Param
  | .bool _ => .bool true
  | p => p

def Param.get_int : Param → Int
  | .int _ v => v
  | _ => 0

def Param.get_size : Param → Int
  | .size _ v => v
  | _ => 0

def Param.get_string : Param → Str
  | .string v => v
  | _ => []

def Param.get_enum : Param → Str
  | .enum _ v => v
  | _ => []

def Param.get_bool : Param → Bool
  | .bool v => v
  | _ => false

/-- The remainder of a size literal after stripping a K, M or G suffix (the
part that must still be a decimal integer for the parse to commit). -/
def strip_suffix (s : Str) : Str :=
  if last_char s = 'K' then s.dropLast
  else if last_char s = 'M' then s.dropLast
  else if last_char s = 'G' then s.dropLast
  else s

/-- A Switch binds a display name, an optional short key, an optional long
key and exactly one value handler; the handler borrow of the source is an
index into the handler arena here. -/
structure Switch : Type where
  name : Str
  switch : Option Char
  ext_switch : Option Str
  handler : Nat
deriving DecidableEq

/-- HashMap::insert on an association list: replaces the value of an
existing key, otherwise appends the new binding. -/
def insertA {α β : Type} [DecidableEq α] : List (α × β) → α → β → List (α × β)
  | [], k, v => [(k, v)]
  | (k', v') :: rest, k, v =>
    if k' = k then (k, v) :: rest else (k', v') :: insertA rest k v

/-- HashMap::get on an association list. -/
def lookupA {α β : Type} [DecidableEq α] : List (α × β) → α → Option β
  | [], _ => none
  | (k', v') :: rest, k => if k' = k then some v' else lookupA rest k

structure Arguments : Type where
  program_name : Str
  switch_map : List (Char × Switch)
  ext_switch_map : List (Str × Switch)
  other_arguments : List Str
  other_argument_names : Option (List Str)
deriving DecidableEq

/-- One iteration of the registration loop in Arguments::new: insert the
switch under its short key and under its long key, when present. -/
def add_switch (maps : List (Char × Switch) × List (Str × Switch)) (sw : Switch) :
    List (Char × Switch) × List (Str × Switch) :=
  (match sw.switch with
   | some c => insertA maps.1 c sw
   | none => maps.1,
   match sw.ext_switch with
   | some k => insertA maps.2 k sw
   | none => maps.2)

def Arguments.new (program_name : Str) (switches : List Switch)
    (other_argument_names : Option (List Str)) : Arguments :=
  let maps := switches.foldl add_switch ([], [])
  { program_name := program_name
    switch_map := maps.1
    ext_switch_map := maps.2
    other_arguments := []
    other_argument_names := other_argument_names }

def Arguments.get_other_arguments (a : Arguments) : List Str :=
  a.other_arguments

/-- The state of the scan inside Arguments::build: the Arguments value, the
handler arena, the pending switch (current_parameter in the source) and the
error that the source reports by early return. -/
structure ScanState : Type where
  args : Arguments
  handlers : List Param
  current_parameter : Option Switch
  error : Option Str

def init_state (a : Arguments) (hs : List Param) : ScanState :=
  { args := a, handlers := hs, current_parameter := none, error := none }

/-- Read a handler state from the arena (a dangling index, impossible with
the borrows of the source, falls back to an inert handler). -/
def getH (hs : List Param) (i : Nat) : Param :=
  hs.getD i (Param.bool false)

def setH (hs : List Param) (i : Nat) (p : Param) : List Param :=
  hs.set i p

def invalid_value_message (name : Str) : Str :=
  "invalid ".toList ++ name ++ " value".toList

/-- The token that follows a pending value-requiring switch: feed it to the
switch's parse_value verbatim; failure aborts the build. -/
def scan_value (st : ScanState) (p : Switch) (arg : Str) : ScanState :=
  let pr := (getH st.handlers p.handler).parse_value arg
  if pr.1 then
    { st with handlers := setH st.handlers p.handler pr.2, current_parameter := none }
  else
    { st with
        handlers := setH st.handlers p.handler pr.2
        error := some (invalid_value_message p.name) }

/-- A recognized switch: mark it pending when its handler requires a value,
otherwise set the presence flag at once. -/
def scan_switch_found (st : ScanState) (p : Switch) : ScanState :=
  if (getH st.handlers p.handler).requires_value then
    { st with current_parameter := some p }
  else
    { st with handlers := setH st.handlers p.handler ((getH st.handlers p.handler).set_value) }

/-- A token that started with a double dash, minus that prefix. -/
def scan_long (st : ScanState) (restKey : Str) : ScanState :=
  if restKey = [] then { st with error := some ("invalid ext_switch".toList) }
  else
    match lookupA st.args.ext_switch_map restKey with
    | some p => scan_switch_found st p
    | none => { st with error := some ("unknown ext switch".toList) }

/-- A token that started with a single dash, minus that dash: it must be
exactly one further character, which is the short key. -/
def scan_short (st : ScanState) (tail : Str) : ScanState :=
  match tail with
  | [c] =>
    (match lookupA st.args.switch_map c with
     | some p => scan_switch_found st p
     | none => { st with error := some ("unknown switch".toList) })
  | _ => { st with error := some ("invalid switch".toList) }

def push_other (st : ScanState) (arg : Str) : ScanState :=
  { st with args := { st.args with other_arguments := st.args.other_arguments ++ [arg] } }

/-- Token dispatch when no switch is pending, mirroring the
starts_with tests of the source. -/
def scan_switch (st : ScanState) (arg : Str) : ScanState :=
  match arg with
  | [] => push_other st []
  | c1 :: rest1 =>
    if c1 = '-' then
      match rest1 with
      | [] => scan_short st []
      | c2 :: rest2 =>
        if c2 = '-' then scan_long st rest2
        else scan_short st (c2 :: rest2)
    else push_other st (c1 :: rest1)

def scan_token (st : ScanState) (arg : Str) : ScanState :=
  match st.current_parameter with
  | some p => scan_value st p arg
  | none => scan_switch st arg

/-- The scan loop of Arguments::build; an error state is absorbing, which
models the early return of the source. -/
def build_loop (st : ScanState) : List Str → ScanState
  | [] => st
  | arg :: rest =>
    match st.error with
    | some _ => st
    | none => build_loop (scan_token st arg) rest

/-- Arguments::build: scan all tokens, then reject a still-pending switch,
then check the positional-argument arity.  The returned ScanState carries
both the Result (the error field) and every mutation made on the way. -/
def Arguments.build (a : Arguments) (hs : List Param) (argv : List Str) : ScanState :=
  let st := build_loop (init_state a hs) argv
  match st.error with
  | some _ => st
  | none =>
    if st.current_parameter.isSome then
      { st with error := some ("switch value expected".toList) }
    else
      match st.args.other_argument_names with
      | some names =>
        if names.length ≠ st.args.other_arguments.length then
          { st with error := some ("incorrect number of arguments".toList) }
        else st
      | none => st

/-- Which registered switch, if any, a lone token resolves to. -/
def token_lookup (smap : List (Char × Switch)) (emap : List (Str × Switch))
    (arg : Str) : Option Switch :=
  match arg with
  | c1 :: c2 :: rest =>
    if c1 = '-' then
      if c2 = '-' then (if rest = [] then none else lookupA emap rest)
      else (if rest = [] then lookupA smap c2 else none)
    else none
  | _ => none

/-- Whether a token, scanned with no switch pending, is a switch occurrence
whose handler lives at arena index i. -/
def token_writes (smap : List (Char × Switch)) (emap : List (Str × Switch))
    (i : Nat) (tok : Str) : Bool :=
  match token_lookup smap emap tok with
  | some p => decide (p.handler = i)
  | none => false

/-- Invariant of the scanner: a pending switch always has a value-requiring
handler, so parse_value is only ever reached for such handlers. -/
def pending_ok (st : ScanState) : Prop :=
  ∀ q : Switch, st.current_parameter = some q →
    (getH st.handlers q.handler).requires_value = true

def posValidator : Int → Bool := fun v => decide (0 < v)

/-- The handler arena of the end-to-end scenario (the crate's own test):
port, maximum memory, threads, verbose, string, enum. -/
def c1_handlers : List Param :=
  [Param.int posValidator 6379,
   Param.size posValidator (1024 * 1024 * 1024),
   Param.int posValidator 4,
   Param.bool false,
   Param.string ("init".toList),
   Param.enum ["value".toList] ("init".toList)]

def c1_switches : List Switch :=
  [{ name := "port".toList, switch := some 'p', ext_switch := none, handler := 0 },
   { name := "maximum_memory".toList, switch := some 'm', ext_switch := none, handler := 1 },
   { name := "threads".toList, switch := some 't', ext_switch := none, handler := 2 },
   { name := "verbose".toList, switch := some 'v', ext_switch := none, handler := 3 },
   { name := "test".toList, switch := none, ext_switch := some ("ss".toList), handler := 4 },
   { name := "test_enum".toList, switch := some 'e', ext_switch := none, handler := 5 }]

def c1_args : Arguments :=
  Arguments.new ("cache".toList) c1_switches (some ["arg1".toList, "arg2".toList])

def c1_tokens : List Str :=
  ["-p", "3333", "-m", "1M", "-t", "12", "-v", "--ss", "test", "-e", "value",
   "arg1", "arg2"].map String.toList

def c1_result : ScanState := c1_args.build c1_handlers c1_tokens

/-- Two switches that collide on the short key x, for the key-collision
scenario. -/
def c8_sw1 : Switch :=
  { name := "first".toList, switch := some 'x', ext_switch := none, handler := 0 }

def c8_sw2 : Switch :=
  { name := "second".toList, switch := some 'x', ext_switch := none, handler := 1 }

lemma wrap64_of_in_isize {v : Int} (h : in_isize v) : wrap64 v = v := by
  rcases h with ⟨h1, h2⟩
  unfold isize_min at h1
  unfold isize_max at h2
  unfold wrap64
  have hnn : (0 : Int) ≤ v + 2 ^ 63 := by omega
  have hlt : v + 2 ^ 63 < 2 ^ 64 := by omega
  rw [Int.emod_eq_of_lt hnn hlt]
  omega

lemma getH_setH_self {hs : List Param} {i : Nat} (x : Param) (h : i < hs.length) :
    getH (setH hs i x) i = x := by
  induction hs generalizing i with
  | nil => simp at h
  | cons a l ih =>
    cases i with
    | zero => simp [getH, setH]
    | succ n =>
      simp only [List.length_cons, Nat.succ_lt_succ_iff] at h
      simpa [getH, setH] using ih h

lemma getH_setH_ne {hs : List Param} {i j : Nat} (x : Param) (h : i ≠ j) :
    getH (setH hs i x) j = getH hs j := by
  induction hs generalizing i j with
  | nil => simp [getH, setH]
  | cons a l ih =>
    cases i with
    | zero =>
      cases j with
      | zero => exact absurd rfl h
      | succ m => simp [getH, setH]
    | succ n =>
      cases j with
      | zero => simp [getH, setH]
      | succ m =>
        have : n ≠ m := fun he => h (by rw [he])
        simpa [getH, setH] using ih this

lemma getH_of_length_le {hs : List Param} {i : Nat} (h : hs.length ≤ i) :
    getH hs i = Param.bool false := by
  simp [getH, List.getD, List.getElem?_eq_none h]

lemma setH_length (hs : List Param) (i : Nat) (x : Param) :
    (setH hs i x).length = hs.length := by
  simp [setH]

lemma requires_value_parse (p : Param) (s : Str) :
    ((p.parse_value s).2).requires_value = p.requires_value := by
  cases p with
  | int f v =>
    simp only [Param.parse_value]
    rcases fromStr s with _ | n
    · rfl
    · by_cases h : f n = true <;> simp [h, Param.requires_value]
  | size f v =>
    simp only [Param.parse_value]
    by_cases he : s = []
    · simp [he]
    · simp only [he, if_false]
      rcases hp : (if (if last_char s = 'M' then (1024 * 1024 : Int)
          else if last_char s = 'K' then 1024
          else if last_char s = 'G' then 1024 * 1024 * 1024
          else 1) = 1 then fromStr s else fromStr s.dropLast) with _ | sz
      · simp [hp]
      · simp only [hp]
        split_ifs <;> rfl
  | string v => rfl
  | enum vs v =>
    simp only [Param.parse_value]
    split <;> rfl
  | bool v => rfl

lemma requires_value_set (p : Param) :
    (p.set_value).requires_value = p.requires_value := by
  cases p <;> rfl

lemma bool_parse_fails (b : Bool) (s : Str) :
    (Param.bool b).parse_value s = (false, Param.bool b) := rfl

lemma last_char_concat (s : Str) (c : Char) : last_char (s ++ [c]) = c := by
  induction s with
  | nil => rfl
  | cons a l ih =>
    cases l with
    | nil => simpa using ih
    | cons b m => simpa using ih

lemma last_char_cons_ne_nil (a : Char) (l : Str) (h : l ≠ []) :
    last_char (a :: l) = last_char l := by
  cases l with
  | nil => exact absurd rfl h
  | cons b m => rfl

lemma parseDigitsAux_digits {l : Str} {acc n : Nat} (h : parseDigitsAux acc l = some n) :
    ∀ c ∈ l, c.isDigit = true := by
  induction l generalizing acc with
  | nil => intro c hc; simp at hc
  | cons a m ih =>
    intro c hc
    simp only [parseDigitsAux] at h
    rcases hd : digitVal a with _ | d
    · rw [hd] at h; exact absurd h (by simp)
    · rw [hd] at h
      have ha : a.isDigit = true := by
        by_contra hne
        simp [digitVal, hne] at hd
      rcases List.mem_cons.mp hc with rfl | hm
      · exact ha
      · exact ih h c hm

lemma parseDigits_ne_nil {l : Str} {n : Nat} (h : parseDigits l = some n) : l ≠ [] := by
  intro he
  rw [he] at h
  simp [parseDigits] at h

lemma parseDigits_digits {l : Str} {n : Nat} (h : parseDigits l = some n) :
    ∀ c ∈ l, c.isDigit = true := by
  have hne := parseDigits_ne_nil h
  cases l with
  | nil => exact absurd rfl hne
  | cons a m =>
    simp only [parseDigits] at h
    exact parseDigitsAux_digits h

lemma last_char_mem {l : Str} (h : l ≠ []) : last_char l ∈ l := by
  induction l with
  | nil => exact absurd rfl h
  | cons a m ih =>
    cases m with
    | nil => simp [last_char]
    | cons b k =>
      have : last_char (a :: b :: k) = last_char (b :: k) := rfl
      rw [this]
      exact List.mem_cons_of_mem a (ih (by simp))

lemma push_other_handlers (st : ScanState) (arg : Str) :
    (push_other st arg).handlers = st.handlers := rfl

lemma push_other_cur (st : ScanState) (arg : Str) :
    (push_other st arg).current_parameter = st.current_parameter := rfl

lemma scan_switch_found_pres (st : ScanState) (p : Switch) :
    (scan_switch_found st p).args = st.args ∧
    (scan_switch_found st p).handlers.length = st.handlers.length := by
  unfold scan_switch_found
  split_ifs with h
  · exact ⟨rfl, rfl⟩
  · exact ⟨rfl, setH_length _ _ _⟩

lemma scan_value_pres (st : ScanState) (p : Switch) (arg : Str) :
    (scan_value st p arg).args = st.args ∧
    (scan_value st p arg).handlers.length = st.handlers.length := by
  cases hb : ((getH st.handlers p.handler).parse_value arg).1 <;>
    simp [scan_value, hb, setH_length]

lemma scan_long_pres (st : ScanState) (k : Str) :
    (scan_long st k).args = st.args ∧
    (scan_long st k).handlers.length = st.handlers.length := by
  unfold scan_long
  split_ifs with h
  · exact ⟨rfl, rfl⟩
  · rcases hl : lookupA st.args.ext_switch_map k with _ | p
    · simp [hl]
    · simp only [hl]
      exact scan_switch_found_pres st p

lemma scan_short_pres (st : ScanState) (tail : Str) :
    (scan_short st tail).args = st.args ∧
    (scan_short st tail).handlers.length = st.handlers.length := by
  rcases tail with _ | ⟨c, r⟩
  · exact ⟨rfl, rfl⟩
  · rcases r with _ | ⟨d, r2⟩
    · simp only [scan_short]
      rcases hl : lookupA st.args.switch_map c with _ | p
      · simp [hl]
      · simp only [hl]
        exact scan_switch_found_pres st p
    · exact ⟨rfl, rfl⟩

lemma scan_token_pres (st : ScanState) (tok : Str) :
    (scan_token st tok).args.switch_map = st.args.switch_map ∧
    (scan_token st tok).args.ext_switch_map = st.args.ext_switch_map ∧
    (scan_token st tok).args.other_argument_names = st.args.other_argument_names ∧
    (scan_token st tok).handlers.length = st.handlers.length := by
  unfold scan_token
  rcases hcur : st.current_parameter with _ | p
  · unfold scan_switch
    rcases tok with _ | ⟨c1, rest1⟩
    · exact ⟨rfl, rfl, rfl, rfl⟩
    · by_cases h1 : c1 = '-'
      · rcases rest1 with _ | ⟨c2, rest2⟩
        · rcases scan_short_pres st [] with ⟨ha, hh⟩
          simp [h1, ha, hh]
        · by_cases h2 : c2 = '-'
          · rcases scan_long_pres st rest2 with ⟨ha, hh⟩
            simp [h1, h2, ha, hh]
          · rcases scan_short_pres st (c2 :: rest2) with ⟨ha, hh⟩
            simp [h1, h2, ha, hh]
      · simp [h1, push_other]
  · rcases scan_value_pres st p tok with ⟨ha, hh⟩
    simp [ha, hh]

lemma build_loop_pres (ts : List Str) : ∀ st : ScanState,
    (build_loop st ts).args.switch_map = st.args.switch_map ∧
    (build_loop st ts).args.ext_switch_map = st.args.ext_switch_map ∧
    (build_loop st ts).args.other_argument_names = st.args.other_argument_names ∧
    (build_loop st ts).handlers.length = st.handlers.length := by
  induction ts with
  | nil => intro st; exact ⟨rfl, rfl, rfl, rfl⟩
  | cons tok rest ih =>
    intro st
    rcases herr : st.error with _ | e
    · simp only [build_loop, herr]
      rcases ih (scan_token st tok) with ⟨i1, i2, i3, i4⟩
      rcases scan_token_pres st tok with ⟨s1, s2, s3, s4⟩
      exact ⟨i1.trans s1, i2.trans s2, i3.trans s3, i4.trans s4⟩
    · simp [build_loop, herr]

lemma build_loop_absorb {st : ScanState} {e : Str} (ts : List Str)
    (h : st.error = some e) : build_loop st ts = st := by
  cases ts with
  | nil => rfl
  | cons tok rest => simp only [build_loop, h]

lemma build_loop_append (xs ys : List Str) : ∀ st : ScanState,
    build_loop st (xs ++ ys) = build_loop (build_loop st xs) ys := by
  induction xs with
  | nil => intro st; rfl
  | cons x rest ih =>
    intro st
    rcases herr : st.error with _ | e
    · simp only [List.cons_append, build_loop, herr]
      exact ih (scan_token st x)
    · simp only [List.cons_append, build_loop, herr]
      exact (build_loop_absorb ys herr).symm

lemma build_state (a : Arguments) (hs : List Param) (argv : List Str) :
    (a.build hs argv).handlers = (build_loop (init_state a hs) argv).handlers ∧
    (a.build hs argv).args = (build_loop (init_state a hs) argv).args := by
  unfold Arguments.build
  rcases herr : (build_loop (init_state a hs) argv).error with _ | e
  · simp only [herr]
    split_ifs with h1
    · exact ⟨rfl, rfl⟩
    · rcases hn : (build_loop (init_state a hs) argv).args.other_argument_names with _ | names
      · simp [hn]
      · simp only [hn]
        split_ifs with h2
        · exact ⟨rfl, rfl⟩
        · exact ⟨rfl, rfl⟩
  · simp [herr]

lemma build_error_of_loop {a : Arguments} {hs : List Param} {argv : List Str} {e : Str}
    (h : (build_loop (init_state a hs) argv).error = some e) :
    (a.build hs argv).error = some e := by
  unfold Arguments.build
  simp only [h]

lemma loop_error_none_of_build {a : Arguments} {hs : List Param} {argv : List Str}
    (h : (a.build hs argv).error = none) :
    (build_loop (init_state a hs) argv).error = none := by
  rcases herr : (build_loop (init_state a hs) argv).error with _ | e
  · rfl
  · rw [build_error_of_loop herr] at h
    exact absurd h (by simp)

lemma scan_token_pending {st : ScanState} {p : Switch} (arg : Str)
    (hc : st.current_parameter = some p) :
    scan_token st arg = scan_value st p arg := by
  unfold scan_token
  rw [hc]

lemma scan_token_resolved {st : ScanState} {arg : Str} {p : Switch}
    (hc : st.current_parameter = none)
    (hl : token_lookup st.args.switch_map st.args.ext_switch_map arg = some p) :
    scan_token st arg = scan_switch_found st p := by
  have hst : scan_token st arg = scan_switch st arg := by
    unfold scan_token
    rw [hc]
  rw [hst]
  rcases arg with _ | ⟨c1, rest1⟩
  · simp [token_lookup] at hl
  · rcases rest1 with _ | ⟨c2, rest2⟩
    · simp [token_lookup] at hl
    · simp only [token_lookup] at hl
      by_cases h1 : c1 = '-'
      · subst h1
        by_cases h2 : c2 = '-'
        · subst h2
          by_cases hr : rest2 = []
          · simp [hr] at hl
          · simp [hr] at hl
            simp [scan_switch, scan_long, hr, hl]
        · by_cases hr : rest2 = []
          · subst hr
            simp [h2] at hl
            simp [scan_switch, scan_short, h2, hl]
          · simp [h2, hr] at hl
      · simp [h1] at hl

lemma token_lookup_handler_ne {smap : List (Char × Switch)} {emap : List (Str × Switch)}
    {i : Nat} {tok : Str} {p : Switch}
    (hw : token_writes smap emap i tok = false)
    (hl : token_lookup smap emap tok = some p) : p.handler ≠ i := by
  unfold token_writes at hw
  rw [hl] at hw
  simpa using hw

lemma getH_setH_parse (hs : List Param) (i : Nat) (s : Str) :
    (getH (setH hs i ((getH hs i).parse_value s).2) i).requires_value =
      (getH hs i).requires_value := by
  by_cases hi : i < hs.length
  · rw [getH_setH_self _ hi, requires_value_parse]
  · have h1 : hs.length ≤ i := Nat.le_of_not_lt hi
    rw [getH_of_length_le (by rw [setH_length]; exact h1), getH_of_length_le h1]

lemma getH_setH_set (hs : List Param) (i : Nat) :
    (getH (setH hs i ((getH hs i).set_value)) i).requires_value =
      (getH hs i).requires_value := by
  by_cases hi : i < hs.length
  · rw [getH_setH_self _ hi, requires_value_set]
  · have h1 : hs.length ≤ i := Nat.le_of_not_lt hi
    rw [getH_of_length_le (by rw [setH_length]; exact h1), getH_of_length_le h1]

lemma scan_switch_found_no_write {st : ScanState} {p : Switch} {i : Nat}
    (hne : p.handler ≠ i)
    (hq0 : ∀ q : Switch, st.current_parameter = some q → q.handler ≠ i) :
    getH (scan_switch_found st p).handlers i = getH st.handlers i ∧
    (∀ q : Switch, (scan_switch_found st p).current_parameter = some q → q.handler ≠ i) := by
  unfold scan_switch_found
  split_ifs with h
  · refine ⟨rfl, ?_⟩
    intro q hq
    simp only [] at hq
    have : p = q := by
      have : some p = some q := hq
      exact Option.some.inj this
    exact this ▸ hne
  · refine ⟨getH_setH_ne _ hne, ?_⟩
    intro q hq
    exact hq0 q hq

lemma scan_value_no_write {st : ScanState} {p : Switch} {arg : Str} {i : Nat}
    (hne : p.handler ≠ i)
    (hq0 : ∀ q : Switch, st.current_parameter = some q → q.handler ≠ i) :
    getH (scan_value st p arg).handlers i = getH st.handlers i ∧
    (∀ q : Switch, (scan_value st p arg).current_parameter = some q → q.handler ≠ i) := by
  cases hb : ((getH st.handlers p.handler).parse_value arg).1
  · simp only [scan_value, hb]
    exact ⟨getH_setH_ne _ hne, hq0⟩
  · simp only [scan_value, hb]
    refine ⟨getH_setH_ne _ hne, ?_⟩
    intro q hq
    have : (none : Option Switch) = some q := hq
    exact absurd this (by simp)

lemma scan_switch_nil (st : ScanState) : scan_switch st [] = push_other st [] := rfl

lemma scan_switch_dash_single (st : ScanState) :
    scan_switch st ['-'] = scan_short st [] := by
  simp [scan_switch]

lemma scan_switch_dash_dash (st : ScanState) (rest : Str) :
    scan_switch st ('-' :: '-' :: rest) = scan_long st rest := by
  simp [scan_switch]

lemma scan_switch_dash_other {c : Char} (st : ScanState) (rest : Str) (h : c ≠ '-') :
    scan_switch st ('-' :: c :: rest) = scan_short st (c :: rest) := by
  simp [scan_switch, h]

lemma scan_switch_nodash {c : Char} (st : ScanState) (rest : Str) (h : c ≠ '-') :
    scan_switch st (c :: rest) = push_other st (c :: rest) := by
  simp [scan_switch, h]

lemma scan_long_nil (st : ScanState) :
    scan_long st [] = { st with error := some ("invalid ext_switch".toList) } := by
  simp [scan_long]

lemma scan_long_found {st : ScanState} {k : Str} {p : Switch} (hk : k ≠ [])
    (hl : lookupA st.args.ext_switch_map k = some p) :
    scan_long st k = scan_switch_found st p := by
  simp [scan_long, hk, hl]

lemma scan_long_unknown {st : ScanState} {k : Str} (hk : k ≠ [])
    (hl : lookupA st.args.ext_switch_map k = none) :
    scan_long st k = { st with error := some ("unknown ext switch".toList) } := by
  simp [scan_long, hk, hl]

lemma scan_short_nil (st : ScanState) :
    scan_short st [] = { st with error := some ("invalid switch".toList) } := rfl

lemma scan_short_long (st : ScanState) (c d : Char) (r : Str) :
    scan_short st (c :: d :: r) = { st with error := some ("invalid switch".toList) } := rfl

lemma scan_short_found {st : ScanState} {c : Char} {p : Switch}
    (hl : lookupA st.args.switch_map c = some p) :
    scan_short st [c] = scan_switch_found st p := by
  simp [scan_short, hl]

lemma scan_short_unknown {st : ScanState} {c : Char}
    (hl : lookupA st.args.switch_map c = none) :
    scan_short st [c] = { st with error := some ("unknown switch".toList) } := by
  simp [scan_short, hl]

lemma no_pending_no_write {st : ScanState} {i : Nat} (hcur : st.current_parameter = none) :
    ∀ q : Switch, st.current_parameter = some q → q.handler ≠ i := by
  intro q hq
  rw [hcur] at hq
  exact absurd hq (by simp)

lemma scan_token_no_write {st : ScanState} {i : Nat} {tok : Str}
    (hw : token_writes st.args.switch_map st.args.ext_switch_map i tok = false)
    (hq0 : ∀ q : Switch, st.current_parameter = some q → q.handler ≠ i) :
    getH (scan_token st tok).handlers i = getH st.handlers i ∧
    (∀ q : Switch, (scan_token st tok).current_parameter = some q → q.handler ≠ i) := by
  rcases hcur : st.current_parameter with _ | p
  · have hst : scan_token st tok = scan_switch st tok := by
      unfold scan_token
      rw [hcur]
    rw [hst]
    rcases tok with _ | ⟨c1, rest1⟩
    · rw [scan_switch_nil]
      exact ⟨rfl, no_pending_no_write hcur⟩
    · by_cases h1 : c1 = '-'
      · subst h1
        rcases rest1 with _ | ⟨c2, rest2⟩
        · rw [scan_switch_dash_single, scan_short_nil]
          exact ⟨rfl, no_pending_no_write hcur⟩
        · by_cases h2 : c2 = '-'
          · subst h2
            rw [scan_switch_dash_dash]
            by_cases hr : rest2 = []
            · subst hr
              rw [scan_long_nil]
              exact ⟨rfl, no_pending_no_write hcur⟩
            · rcases hl : lookupA st.args.ext_switch_map rest2 with _ | p
              · rw [scan_long_unknown hr hl]
                exact ⟨rfl, no_pending_no_write hcur⟩
              · rw [scan_long_found hr hl]
                have hne : p.handler ≠ i := by
                  refine token_lookup_handler_ne hw ?_
                  simp [token_lookup, hr, hl]
                exact scan_switch_found_no_write hne hq0
          · rw [scan_switch_dash_other st rest2 h2]
            rcases rest2 with _ | ⟨c3, rest3⟩
            · rcases hl : lookupA st.args.switch_map c2 with _ | p
              · rw [scan_short_unknown hl]
                exact ⟨rfl, no_pending_no_write hcur⟩
              · rw [scan_short_found hl]
                have hne : p.handler ≠ i := by
                  refine token_lookup_handler_ne hw ?_
                  simp [token_lookup, h2, hl]
                exact scan_switch_found_no_write hne hq0
            · rw [scan_short_long]
              exact ⟨rfl, no_pending_no_write hcur⟩
      · rw [scan_switch_nodash st rest1 h1]
        exact ⟨rfl, no_pending_no_write hcur⟩
  · rw [scan_token_pending tok hcur]
    exact scan_value_no_write (hq0 p hcur) hq0

lemma build_loop_no_write (i : Nat) (ts : List Str) : ∀ st : ScanState,
    (∀ tok ∈ ts, token_writes st.args.switch_map st.args.ext_switch_map i tok = false) →
    (∀ q : Switch, st.current_parameter = some q → q.handler ≠ i) →
    getH (build_loop st ts).handlers i = getH st.handlers i := by
  induction ts with
  | nil => intro st _ _; rfl
  | cons tok rest ih =>
    intro st hw hq
    rcases herr : st.error with _ | e
    · simp only [build_loop, herr]
      rcases scan_token_no_write (hw tok (by simp)) hq with ⟨h1, h2⟩
      have hmaps := scan_token_pres st tok
      have hw2 : ∀ t ∈ rest, token_writes (scan_token st tok).args.switch_map
          (scan_token st tok).args.ext_switch_map i t = false := by
        intro t ht
        rw [hmaps.1, hmaps.2.1]
        exact hw t (List.mem_cons_of_mem tok ht)
      exact (ih (scan_token st tok) hw2 h2).trans h1
    · simp [build_loop, herr]

lemma scan_switch_found_pending_ok {st : ScanState} {p : Switch}
    (h : pending_ok st) : pending_ok (scan_switch_found st p) := by
  unfold scan_switch_found
  split_ifs with hreq
  · intro q hq
    have hpq : p = q := by
      have : some p = some q := hq
      exact Option.some.inj this
    exact hpq ▸ hreq
  · intro q hq
    have hc : st.current_parameter = some q := hq
    have hr := h q hc
    by_cases he : p.handler = q.handler
    · show (getH (setH st.handlers p.handler ((getH st.handlers p.handler).set_value))
        q.handler).requires_value = true
      rw [← he, getH_setH_set, he]
      exact hr
    · show (getH (setH st.handlers p.handler ((getH st.handlers p.handler).set_value))
        q.handler).requires_value = true
      rw [getH_setH_ne _ he]
      exact hr

lemma scan_value_pending_ok {st : ScanState} {p : Switch} {arg : Str}
    (h : pending_ok st) : pending_ok (scan_value st p arg) := by
  cases hb : ((getH st.handlers p.handler).parse_value arg).1
  · simp only [scan_value, hb]
    intro q hq
    have hc : st.current_parameter = some q := hq
    have hr := h q hc
    by_cases he : p.handler = q.handler
    · show (getH (setH st.handlers p.handler
        ((getH st.handlers p.handler).parse_value arg).2) q.handler).requires_value = true
      rw [← he, getH_setH_parse, he]
      exact hr
    · show (getH (setH st.handlers p.handler
        ((getH st.handlers p.handler).parse_value arg).2) q.handler).requires_value = true
      rw [getH_setH_ne _ he]
      exact hr
  · simp only [scan_value, hb]
    intro q hq
    have : (none : Option Switch) = some q := hq
    exact absurd this (by simp)

lemma pending_ok_fields {st st' : ScanState} (h : pending_ok st)
    (hcur : st'.current_parameter = st.current_parameter)
    (hh : st'.handlers = st.handlers) : pending_ok st' := by
  intro q hq
  rw [hcur] at hq
  rw [hh]
  exact h q hq

lemma scan_token_pending_ok {st : ScanState} {tok : Str}
    (h : pending_ok st) : pending_ok (scan_token st tok) := by
  rcases hcur : st.current_parameter with _ | p
  · have hst : scan_token st tok = scan_switch st tok := by
      unfold scan_token
      rw [hcur]
    rw [hst]
    rcases tok with _ | ⟨c1, rest1⟩
    · rw [scan_switch_nil]
      exact pending_ok_fields h rfl rfl
    · by_cases h1 : c1 = '-'
      · subst h1
        rcases rest1 with _ | ⟨c2, rest2⟩
        · rw [scan_switch_dash_single, scan_short_nil]
          exact pending_ok_fields h rfl rfl
        · by_cases h2 : c2 = '-'
          · subst h2
            rw [scan_switch_dash_dash]
            by_cases hr : rest2 = []
            · subst hr
              rw [scan_long_nil]
              exact pending_ok_fields h rfl rfl
            · rcases hl : lookupA st.args.ext_switch_map rest2 with _ | p
              · rw [scan_long_unknown hr hl]
                exact pending_ok_fields h rfl rfl
              · rw [scan_long_found hr hl]
                exact scan_switch_found_pending_ok h
          · rw [scan_switch_dash_other st rest2 h2]
            rcases rest2 with _ | ⟨c3, rest3⟩
            · rcases hl : lookupA st.args.switch_map c2 with _ | p
              · rw [scan_short_unknown hl]
                exact pending_ok_fields h rfl rfl
              · rw [scan_short_found hl]
                exact scan_switch_found_pending_ok h
            · rw [scan_short_long]
              exact pending_ok_fields h rfl rfl
      · rw [scan_switch_nodash st rest1 h1]
        exact pending_ok_fields h rfl rfl
  · rw [scan_token_pending tok hcur]
    exact scan_value_pending_ok h

lemma build_loop_pending_ok (ts : List Str) : ∀ st : ScanState,
    pending_ok st → pending_ok (build_loop st ts) := by
  induction ts with
  | nil => intro st h; exact h
  | cons tok rest ih =>
    intro st h
    rcases herr : st.error with _ | e
    · simp only [build_loop, herr]
      exact ih (scan_token st tok) (scan_token_pending_ok h)
    · simpa [build_loop, herr] using h

lemma decimalInt_last_digit {s : Str} {n : Int} (h : decimalInt s = some n) :
    (last_char s).isDigit = true := by
  cases s with
  | nil => simp [decimalInt] at h
  | cons c rest =>
    simp only [decimalInt] at h
    by_cases hp : c = '+'
    · simp only [hp, if_pos rfl] at h
      rcases hd : parseDigits rest with _ | m
      · rw [hd] at h; simp at h
      · have hne := parseDigits_ne_nil hd
        rw [last_char_cons_ne_nil _ _ hne]
        exact parseDigits_digits hd _ (last_char_mem hne)
    · by_cases hm : c = '-'
      · simp only [hp, if_false, hm, if_pos rfl] at h
        rcases hd : parseDigits rest with _ | m
        · rw [hd] at h; simp at h
        · have hne := parseDigits_ne_nil hd
          rw [last_char_cons_ne_nil _ _ hne]
          exact parseDigits_digits hd _ (last_char_mem hne)
      · simp only [hp, hm, if_false] at h
        rcases hd : parseDigits (c :: rest) with _ | m
        · rw [hd] at h; simp at h
        · exact parseDigits_digits hd _ (last_char_mem (by simp))

lemma fromStr_of_decimalInt {s : Str} {n : Int} (hd : decimalInt s = some n)
    (hr : in_isize n) : fromStr s = some n := by
  unfold fromStr
  rw [hd]
  exact if_pos hr

lemma fromStr_none {s : Str} (hd : decimalInt s = none) : fromStr s = none := by
  unfold fromStr
  rw [hd]

lemma dropLast_concat_single (s : Str) (c : Char) : (s ++ [c]).dropLast = s := by
  simp

lemma size_parse_scaled (f : Int → Bool) (old : Int) (s : Str) (n mult : Int)
    (hne : s ≠ [])
    (hm : (if last_char s = 'M' then (1024 * 1024 : Int)
      else if last_char s = 'K' then (1024 : Int)
      else if last_char s = 'G' then (1024 * 1024 * 1024 : Int) else 1) = mult)
    (hmne : mult ≠ 1)
    (hfs : fromStr s.dropLast = some n)
    (hrange : in_isize (n * mult))
    (hf : f (n * mult) = true) :
    (Param.size f old).parse_value s = (true, Param.size f (n * mult)) := by
  simp only [Param.parse_value, if_neg hne, hm]
  rw [if_neg hmne]
  simp only [hfs]
  simp only [wrap64_of_in_isize hrange]
  rw [if_pos hf]

lemma size_parse_plain (f : Int → Bool) (old : Int) (s : Str) (n : Int)
    (hne : s ≠ [])
    (hm : (if last_char s = 'M' then (1024 * 1024 : Int)
      else if last_char s = 'K' then (1024 : Int)
      else if last_char s = 'G' then (1024 * 1024 * 1024 : Int) else 1) = 1)
    (hfs : fromStr s = some n)
    (hrange : in_isize n)
    (hf : f n = true) :
    (Param.size f old).parse_value s = (true, Param.size f n) := by
  simp only [Param.parse_value, if_neg hne, hm]
  simp only [if_true]
  simp only [hfs]
  have hw : wrap64 (n * 1) = n := by
    rw [mul_one]
    exact wrap64_of_in_isize hrange
  simp only [hw]
  rw [if_pos hf]

lemma size_parse_bad_remainder (f : Int → Bool) (old : Int) (s : Str)
    (hne : s ≠ []) (hbad : decimalInt (strip_suffix s) = none) :
    (Param.size f old).parse_value s = (false, Param.size f old) := by
  by_cases hK : last_char s = 'K'
  · have hs : strip_suffix s = s.dropLast := by
      simp [strip_suffix, hK]
    rw [hs] at hbad
    have hKM : last_char s ≠ 'M' := by
      rw [hK]; decide
    simp only [Param.parse_value, if_neg hne, if_neg hKM, if_pos hK]
    rw [if_neg (by decide : ¬((1024 : Int) = 1))]
    simp only [fromStr_none hbad]
  · by_cases hM : last_char s = 'M'
    · have hs : strip_suffix s = s.dropLast := by
        simp [strip_suffix, hK, hM]
      rw [hs] at hbad
      simp only [Param.parse_value, if_neg hne, if_pos hM]
      rw [if_neg (by decide : ¬((1024 * 1024 : Int) = 1))]
      simp only [fromStr_none hbad]
    · by_cases hG : last_char s = 'G'
      · have hs : strip_suffix s = s.dropLast := by
          simp [strip_suffix, hK, hM, hG]
        rw [hs] at hbad
        simp only [Param.parse_value, if_neg hne, if_neg hM, if_neg hK, if_pos hG]
        rw [if_neg (by decide : ¬((1024 * 1024 * 1024 : Int) = 1))]
        simp only [fromStr_none hbad]
      · have hs : strip_suffix s = s := by
          simp [strip_suffix, hK, hM, hG]
        rw [hs] at hbad
        simp only [Param.parse_value, if_neg hne, if_neg hM, if_neg hK, if_neg hG]
        simp only [if_true]
        simp only [fromStr_none hbad]

lemma isDigit_ne_KMG {c : Char} (h : c.isDigit = true) :
    c ≠ 'K' ∧ c ≠ 'M' ∧ c ≠ 'G' := by
  refine ⟨?_, ?_, ?_⟩ <;> intro he <;> subst he <;> simp at h

/-- C2 counterexample: 9223372036854775808 = 2^63 is a decimal integer
string whose scaled (suffix-free) value passes an always-true validator,
yet SizeParameter::parse_value returns false and keeps the old value,
because isize::from_str rejects literals above isize::MAX; the claim as
stated demands a commit of 2^63 here. -/
theorem c2_size_overflow_cex :
    decimalInt ("9223372036854775808".toList) = some (2 ^ 63) ∧
    (fun _ : Int => true) ((2 : Int) ^ 63) = true ∧
    ((Param.size (fun _ : Int => true) 0).parse_value ("9223372036854775808".toList)).1 = false ∧
    (((Param.size (fun _ : Int => true) 0).parse_value
      ("9223372036854775808".toList)).2).get_size = 0 := by
  refine ⟨by decide, rfl, by decide, by decide⟩

/-- C2 (amended): for every decimal integer string n whose value and whose
scaled value fit the 64-bit isize range, SizeParameter::parse_value on
"nK" / "nM" / "nG" commits n*1024 / n*1048576 / n*1073741824, and on bare
"n" (no K/M/G suffix) commits n, whenever the scaled value passes the
configured validator; parse_value on the empty string fails, and fails on
any input whose remainder after stripping a K/M/G suffix is not a decimal
integer.  (The in-range hypotheses are forced by isize::from_str, which
rejects out-of-range literals: see the counterexample.) -/
theorem c2_size_round_trip (f : Int → Bool) (old : Int) :
    ((Param.size f old).parse_value [] = (false, Param.size f old)) ∧
    (∀ (s : Str) (n : Int), decimalInt s = some n → in_isize n → in_isize (n * 1024) →
      f (n * 1024) = true →
      (Param.size f old).parse_value (s ++ ['K']) = (true, Param.size f (n * 1024))) ∧
    (∀ (s : Str) (n : Int), decimalInt s = some n → in_isize n → in_isize (n * 1048576) →
      f (n * 1048576) = true →
      (Param.size f old).parse_value (s ++ ['M']) = (true, Param.size f (n * 1048576))) ∧
    (∀ (s : Str) (n : Int), decimalInt s = some n → in_isize n → in_isize (n * 1073741824) →
      f (n * 1073741824) = true →
      (Param.size f old).parse_value (s ++ ['G']) = (true, Param.size f (n * 1073741824))) ∧
    (∀ (s : Str) (n : Int), decimalInt s = some n → in_isize n → f n = true →
      (Param.size f old).parse_value s = (true, Param.size f n)) ∧
    (∀ s : Str, s ≠ [] → decimalInt (strip_suffix s) = none →
      (Param.size f old).parse_value s = (false, Param.size f old)) := by
  refine ⟨rfl, ?_, ?_, ?_, ?_, ?_⟩
  · intro s n hd hr hr2 hf
    refine size_parse_scaled f old (s ++ ['K']) n 1024 (by simp) ?_ (by decide) ?_ ?_ hf
    · rw [last_char_concat]
      decide
    · rw [dropLast_concat_single]
      exact fromStr_of_decimalInt hd hr
    · exact hr2
  · intro s n hd hr hr2 hf
    have h1 : (1048576 : Int) = 1024 * 1024 := by decide
    rw [h1] at hr2 hf ⊢
    refine size_parse_scaled f old (s ++ ['M']) n (1024 * 1024) (by simp) ?_ (by decide) ?_ ?_ hf
    · rw [last_char_concat]
      decide
    · rw [dropLast_concat_single]
      exact fromStr_of_decimalInt hd hr
    · exact hr2
  · intro s n hd hr hr2 hf
    have h1 : (1073741824 : Int) = 1024 * 1024 * 1024 := by decide
    rw [h1] at hr2 hf ⊢
    refine size_parse_scaled f old (s ++ ['G']) n (1024 * 1024 * 1024) (by simp) ?_
      (by decide) ?_ ?_ hf
    · rw [last_char_concat]
      decide
    · rw [dropLast_concat_single]
      exact fromStr_of_decimalInt hd hr
    · exact hr2
  · intro s n hd hr hf
    have hdig := decimalInt_last_digit hd
    rcases isDigit_ne_KMG hdig with ⟨hK, hM, hG⟩
    have hne : s ≠ [] := by
      intro he
      rw [he] at hd
      simp [decimalInt] at hd
    refine size_parse_plain f old s n hne ?_ (fromStr_of_decimalInt hd hr) hr hf
    rw [if_neg hM, if_neg hK, if_neg hG]
  · intro s hne hbad
    exact size_parse_bad_remainder f old s hne hbad

/-- C2 witness: "5K" commits 5120 through the amended round-trip theorem. -/
theorem c2_size_round_trip_witness :
    (Param.size posValidator 0).parse_value ("5".toList ++ ['K']) =
      (true, Param.size posValidator (5 * 1024)) :=
  (c2_size_round_trip posValidator 0).2.1 ("5".toList) 5 (by decide) (by decide)
    (by decide) (by decide)

lemma parse_value_cases (p : Param) (s : Str) :
    (p.parse_value s).1 = true ∨ (p.parse_value s).2 = p := by
  cases p with
  | int f v =>
    rcases hf : fromStr s with _ | n
    · right
      simp [Param.parse_value, hf]
    · by_cases hv : f n = true
      · left
        simp [Param.parse_value, hf, hv]
      · right
        simp [Param.parse_value, hf, hv]
  | string v => left; rfl
  | enum vs v =>
    by_cases hm : s ∈ vs
    · left
      simp [Param.parse_value, hm]
    · right
      simp [Param.parse_value, hm]
  | bool v => right; rfl
  | size f v =>
    simp only [Param.parse_value]
    by_cases he : s = []
    · simp [he]
    · simp only [he, if_false]
      rcases hp : (if (if last_char s = 'M' then (1024 * 1024 : Int)
          else if last_char s = 'K' then 1024
          else if last_char s = 'G' then 1024 * 1024 * 1024
          else 1) = 1 then fromStr s else fromStr s.dropLast) with _ | sz
      · simp [hp]
      · simp only [hp]
        split_ifs <;> simp

/-- C3: parse_value commits a new value only when conversion and validation
both succeed, returns true exactly when it commits, and leaves the stored
value unchanged whenever it returns false; the integer and enumeration
handlers are spelled out in full. -/
theorem c3_commit_discipline :
    (∀ (p : Param) (s : Str), (p.parse_value s).1 = false → (p.parse_value s).2 = p) ∧
    (∀ (f : Int → Bool) (v : Int) (s : Str) (n : Int), fromStr s = some n →
      (Param.int f v).parse_value s =
        if f n then (true, Param.int f n) else (false, Param.int f v)) ∧
    (∀ (f : Int → Bool) (v : Int) (s : Str), fromStr s = none →
      (Param.int f v).parse_value s = (false, Param.int f v)) ∧
    (∀ (vs : List Str) (v s : Str),
      (Param.enum vs v).parse_value s =
        if s ∈ vs then (true, Param.enum vs s) else (false, Param.enum vs v)) := by
  refine ⟨?_, ?_, ?_, ?_⟩
  · intro p s h
    refine (parse_value_cases p s).resolve_left ?_
    simp [h]
  · intro f v s n hf
    simp only [Param.parse_value, hf]
  · intro f v s hf
    simp only [Param.parse_value, hf]
  · intro vs v s
    simp only [Param.parse_value]

/-- C3 witness: an integer handler keeps its prior value on a non-numeric
input, and an enum handler keeps its prior value on a non-member input. -/
theorem c3_commit_discipline_witness :
    (Param.int posValidator 5).parse_value ("abc".toList) = (false, Param.int posValidator 5) ∧
    ((Param.enum ["value".toList] ("init".toList)).parse_value ("bogus".toList)).2 =
      Param.enum ["value".toList] ("init".toList) := by
  constructor
  · exact c3_commit_discipline.2.2.1 posValidator 5 ("abc".toList) (by decide)
  · exact c3_commit_discipline.1 (Param.enum ["value".toList] ("init".toList))
      ("bogus".toList) (by decide)

/-- C5: with no switch pending, a token that starts with one dash (and not
two) is rejected as "invalid switch" unless it is exactly two characters
long; a two-character token has its second character looked up in the
short-key mapping, an unknown key failing with "unknown switch" and a known
key routing to the registered switch. -/
theorem c5_short_switch_form :
    (∀ st : ScanState, st.current_parameter = none →
      scan_token st ['-'] = { st with error := some ("invalid switch".toList) }) ∧
    (∀ (st : ScanState) (c d : Char) (ts : Str), st.current_parameter = none → c ≠ '-' →
      scan_token st ('-' :: c :: d :: ts) =
        { st with error := some ("invalid switch".toList) }) ∧
    (∀ (st : ScanState) (c : Char), st.current_parameter = none → c ≠ '-' →
      lookupA st.args.switch_map c = none →
      scan_token st ['-', c] = { st with error := some ("unknown switch".toList) }) ∧
    (∀ (st : ScanState) (c : Char) (p : Switch), st.current_parameter = none → c ≠ '-' →
      lookupA st.args.switch_map c = some p →
      scan_token st ['-', c] = scan_switch_found st p) := by
  refine ⟨?_, ?_, ?_, ?_⟩
  · intro st hc
    have hst : scan_token st ['-'] = scan_switch st ['-'] := by
      unfold scan_token
      rw [hc]
    rw [hst, scan_switch_dash_single, scan_short_nil]
  · intro st c d ts hc hne
    have hst : scan_token st ('-' :: c :: d :: ts) = scan_switch st ('-' :: c :: d :: ts) := by
      unfold scan_token
      rw [hc]
    rw [hst, scan_switch_dash_other st (d :: ts) hne, scan_short_long]
  · intro st c hc hne hl
    have hst : scan_token st ['-', c] = scan_switch st ['-', c] := by
      unfold scan_token
      rw [hc]
    rw [hst, scan_switch_dash_other st [] hne, scan_short_unknown hl]
  · intro st c p hc hne hl
    have hst : scan_token st ['-', c] = scan_switch st ['-', c] := by
      unfold scan_token
      rw [hc]
    rw [hst, scan_switch_dash_other st [] hne, scan_short_found hl]

/-- C5 witness: the three-character token -zz is rejected as an invalid
switch by the scanner of the end-to-end fixture. -/
theorem c5_short_switch_form_witness :
    scan_token (init_state c1_args c1_handlers) ("-zz".toList) =
      { init_state c1_args c1_handlers with error := some ("invalid switch".toList) } :=
  c5_short_switch_form.2.1 (init_state c1_args c1_handlers) 'z' 'z' [] rfl (by decide)

/-- C6: when the scan ends while a switch still awaits its value, build
fails with the message "switch value expected"; in particular the
single-token input -p of the end-to-end fixture fails exactly so. -/
theorem c6_pending_value_expected :
    (∀ (a : Arguments) (hs : List Param) (ts : List Str),
      (build_loop (init_state a hs) ts).error = none →
      (build_loop (init_state a hs) ts).current_parameter.isSome = true →
      (a.build hs ts).error = some ("switch value expected".toList)) ∧
    (c1_args.build c1_handlers ["-p".toList]).error =
      some ("switch value expected".toList) := by
  constructor
  · intro a hs ts h1 h2
    simp [Arguments.build, h1, h2]
  · decide

/-- C6 witness: the general still-pending rule applied to the single token
-p of the end-to-end fixture. -/
theorem c6_pending_value_expected_witness :
    (c1_args.build c1_handlers ["-p".toList]).error =
      some ("switch value expected".toList) :=
  c6_pending_value_expected.1 c1_args c1_handlers ["-p".toList] (by decide) (by decide)

/-- C1: building the registered switch set on the tokens
-p 3333 -m 1M -t 12 -v --ss test -e value arg1 arg2 with expected
positionals [arg1, arg2] succeeds, and afterwards port holds 3333, the size
handler holds 1048576, threads holds 12, the flag is true, the string
handler holds "test", the enum handler holds "value", and
get_other_arguments returns [arg1, arg2] in order. -/
theorem c1_end_to_end_success :
    c1_result.error = none ∧
    (getH c1_result.handlers 0).get_int = 3333 ∧
    (getH c1_result.handlers 1).get_size = 1048576 ∧
    (getH c1_result.handlers 2).get_int = 12 ∧
    (getH c1_result.handlers 3).get_bool = true ∧
    (getH c1_result.handlers 4).get_string = "test".toList ∧
    (getH c1_result.handlers 5).get_enum = "value".toList ∧
    c1_result.args.get_other_arguments = ["arg1".toList, "arg2".toList] := by
  decide

/-- C10: build is not atomic on failure: what it returns is exactly the scan
state accumulated so far (the post-scan checks change only the error
field), so handler values and positional tokens committed before a failure
persist; concretely, an arity failure after -p 3333 x y z still leaves the
port handler at 3333 and all three positionals collected. -/
theorem c10_non_atomic_failure :
    (∀ (a : Arguments) (hs : List Param) (xs ys : List Str),
      (a.build hs (xs ++ ys)).handlers =
        (build_loop (build_loop (init_state a hs) xs) ys).handlers ∧
      (a.build hs (xs ++ ys)).args.other_arguments =
        (build_loop (build_loop (init_state a hs) xs) ys).args.other_arguments) ∧
    ((c1_args.build c1_handlers (["-p", "3333", "x", "y", "z"].map String.toList)).error =
        some ("incorrect number of arguments".toList) ∧
      (getH (c1_args.build c1_handlers
        (["-p", "3333", "x", "y", "z"].map String.toList)).handlers 0).get_int = 3333 ∧
      (c1_args.build c1_handlers
          (["-p", "3333", "x", "y", "z"].map String.toList)).args.get_other_arguments =
        ["x", "y", "z"].map String.toList) := by
  constructor
  · intro a hs xs ys
    rcases build_state a hs (xs ++ ys) with ⟨h1, h2⟩
    rw [build_loop_append xs ys (init_state a hs)] at h1 h2
    exact ⟨h1, by rw [h2]⟩
  · refine ⟨by decide, by decide, by decide⟩

/-- C9: the scanner's pending switch always has a value-requiring handler
(so parse_value, which it applies only to the pending switch, is never
reached for a presence flag); a recognized switch whose handler does not
require a value is consumed by set_value in that very token, leaving no
pending state and no token consumed after it; and the boolean flag's
set_value sets true, requires_value is false, and its parse_value never
commits. -/
theorem c9_flag_discipline :
    (∀ (st : ScanState) (ts : List Str),
      pending_ok st → pending_ok (build_loop st ts)) ∧
    (∀ (st : ScanState) (tok : Str) (rest : List Str) (p : Switch),
      st.error = none → st.current_parameter = none →
      token_lookup st.args.switch_map st.args.ext_switch_map tok = some p →
      (getH st.handlers p.handler).requires_value = false →
      build_loop st (tok :: rest) =
        build_loop { st with
          handlers := setH st.handlers p.handler ((getH st.handlers p.handler).set_value) }
          rest) ∧
    (∀ b : Bool, (Param.bool b).set_value = Param.bool true ∧
      (Param.bool b).requires_value = false ∧
      ∀ s : Str, (Param.bool b).parse_value s = (false, Param.bool b)) := by
  refine ⟨?_, ?_, ?_⟩
  · intro st ts h
    exact build_loop_pending_ok ts st h
  · intro st tok rest p herr hcur hl hreq
    have h0 : build_loop st (tok :: rest) = build_loop (scan_token st tok) rest := by
      simp only [build_loop, herr]
    rw [h0, scan_token_resolved hcur hl]
    have h1 : scan_switch_found st p = { st with
        handlers := setH st.handlers p.handler ((getH st.handlers p.handler).set_value) } := by
      simp [scan_switch_found, hreq]
    rw [h1]
  · intro b
    exact ⟨rfl, rfl, fun s => rfl⟩

/-- C9 witness: the flag token -v of the fixture is consumed alone, the
scan continuing on the remaining token with the flag handler set. -/
theorem c9_flag_discipline_witness :
    build_loop (init_state c1_args c1_handlers) (["-v", "x"].map String.toList) =
      build_loop { init_state c1_args c1_handlers with
        handlers := setH c1_handlers 3 ((getH c1_handlers 3).set_value) } ["x".toList] :=
  c9_flag_discipline.2.1 (init_state c1_args c1_handlers) ("-v".toList) ["x".toList]
    { name := "verbose".toList, switch := some 'v', ext_switch := none, handler := 3 }
    rfl rfl (by decide) (by decide)

/-- C4: a recognized value-requiring switch consumes exactly the next token
verbatim as its value: the very token that follows, dashes or not, is what
parse_value receives, success clearing the pending switch and failure
aborting with "invalid <name> value"; and a single --key=value token is
looked up whole (the "=value" part included) in the long-key mapping, never
split into a switch-plus-value pair. -/
theorem c4_value_consumption :
    (∀ (st : ScanState) (arg t : Str) (rest : List Str) (p : Switch),
      st.error = none → st.current_parameter = none →
      token_lookup st.args.switch_map st.args.ext_switch_map arg = some p →
      (getH st.handlers p.handler).requires_value = true →
      build_loop st (arg :: t :: rest) =
        (if ((getH st.handlers p.handler).parse_value t).1 = true then
          build_loop { st with
            handlers := setH st.handlers p.handler ((getH st.handlers p.handler).parse_value t).2
            current_parameter := none } rest
        else { st with
            handlers := setH st.handlers p.handler ((getH st.handlers p.handler).parse_value t).2
            current_parameter := some p
            error := some (invalid_value_message p.name) })) ∧
    (∀ (st : ScanState) (k v : Str), st.current_parameter = none →
      lookupA st.args.ext_switch_map (k ++ '=' :: v) = none →
      scan_token st ('-' :: '-' :: (k ++ '=' :: v)) =
        { st with error := some ("unknown ext switch".toList) }) := by
  constructor
  · intro st arg t rest p herr hcur hl hreq
    have h0 : build_loop st (arg :: t :: rest) = build_loop (scan_token st arg) (t :: rest) := by
      simp only [build_loop, herr]
    rw [h0, scan_token_resolved hcur hl]
    have h1 : scan_switch_found st p = { st with current_parameter := some p } := by
      simp [scan_switch_found, hreq]
    rw [h1]
    have h2 : build_loop { st with current_parameter := some p } (t :: rest) =
        build_loop (scan_token { st with current_parameter := some p } t) rest := by
      simp only [build_loop, herr]
    rw [h2, scan_token_pending t rfl]
    cases hb : ((getH st.handlers p.handler).parse_value t).1
    · have h3 : scan_value { st with current_parameter := some p } p t =
          { st with
            handlers := setH st.handlers p.handler ((getH st.handlers p.handler).parse_value t).2
            current_parameter := some p
            error := some (invalid_value_message p.name) } := by
        simp only [scan_value, hb, Bool.false_eq_true, if_false]
      rw [h3, build_loop_absorb rest rfl]
      simp
    · have h3 : scan_value { st with current_parameter := some p } p t =
          { st with
            handlers := setH st.handlers p.handler ((getH st.handlers p.handler).parse_value t).2
            current_parameter := none } := by
        simp only [scan_value, hb, if_true]
      rw [h3]
      simp
  · intro st k v hcur hl
    have hst : scan_token st ('-' :: '-' :: (k ++ '=' :: v)) =
        scan_switch st ('-' :: '-' :: (k ++ '=' :: v)) := by
      unfold scan_token
      rw [hcur]
    rw [hst, scan_switch_dash_dash]
    exact scan_long_unknown (by simp) hl

/-- C4 witness: after recognizing -p, the fixture's scanner feeds the very
next token to the port handler, which commits 3333. -/
theorem c4_value_consumption_witness :
    build_loop (init_state c1_args c1_handlers) ["-p".toList, "3333".toList] =
      { init_state c1_args c1_handlers with
        handlers := setH c1_handlers 0 (Param.int posValidator 3333)
        current_parameter := none } := by
  have h := c4_value_consumption.1 (init_state c1_args c1_handlers) ("-p".toList)
    ("3333".toList) []
    { name := "port".toList, switch := some 'p', ext_switch := none, handler := 0 }
    rfl rfl (by decide) (by decide)
  rw [h]
  rfl

/-- C7: if a token list splits as pre ++ [sw, v] ++ post, the scan of pre
ends cleanly with nothing pending, sw resolves to a value-requiring switch
p, no token of post is an occurrence of a switch bound to p's handler, and
build succeeds on the whole list, then p's handler finally holds exactly
what the parse of v committed: the last occurrence of a repeated switch
overwrites every earlier one. -/
theorem c7_last_occurrence_wins (a : Arguments) (hs : List Param) (pre post : List Str)
    (sw v : Str) (p : Switch)
    (h1 : (build_loop (init_state a hs) pre).error = none)
    (h2 : (build_loop (init_state a hs) pre).current_parameter = none)
    (h3 : token_lookup a.switch_map a.ext_switch_map sw = some p)
    (h4 : (getH (build_loop (init_state a hs) pre).handlers p.handler).requires_value = true)
    (h5 : ∀ tok ∈ post, token_writes a.switch_map a.ext_switch_map p.handler tok = false)
    (h6 : (a.build hs (pre ++ sw :: v :: post)).error = none) :
    getH (a.build hs (pre ++ sw :: v :: post)).handlers p.handler =
      ((getH (build_loop (init_state a hs) pre).handlers p.handler).parse_value v).2 := by
  have hloope : (build_loop (init_state a hs) (pre ++ sw :: v :: post)).error = none :=
    loop_error_none_of_build h6
  have hmaps := build_loop_pres pre (init_state a hs)
  have h3x : token_lookup (build_loop (init_state a hs) pre).args.switch_map
      (build_loop (init_state a hs) pre).args.ext_switch_map sw = some p := by
    rw [hmaps.1, hmaps.2.1]
    exact h3
  have hchain1 : build_loop (init_state a hs) (pre ++ sw :: v :: post) =
      build_loop (scan_token (build_loop (init_state a hs) pre) sw) (v :: post) := by
    rw [build_loop_append pre (sw :: v :: post) (init_state a hs)]
    simp only [build_loop, h1]
  have hsf : scan_token (build_loop (init_state a hs) pre) sw =
      { build_loop (init_state a hs) pre with current_parameter := some p } := by
    rw [scan_token_resolved h2 h3x]
    simp [scan_switch_found, h4]
  have hchain2 : build_loop { build_loop (init_state a hs) pre with
      current_parameter := some p } (v :: post) =
      build_loop (scan_value { build_loop (init_state a hs) pre with
        current_parameter := some p } p v) post := by
    simp only [build_loop, h1]
    rw [scan_token_pending v rfl]
  cases hb : ((getH (build_loop (init_state a hs) pre).handlers p.handler).parse_value v).1
  · exfalso
    have hv : scan_value { build_loop (init_state a hs) pre with
        current_parameter := some p } p v =
        { build_loop (init_state a hs) pre with
          handlers := setH (build_loop (init_state a hs) pre).handlers p.handler
            ((getH (build_loop (init_state a hs) pre).handlers p.handler).parse_value v).2
          current_parameter := some p
          error := some (invalid_value_message p.name) } := by
      simp only [scan_value, hb, Bool.false_eq_true, if_false]
    have herr2 : (build_loop (init_state a hs) (pre ++ sw :: v :: post)).error =
        some (invalid_value_message p.name) := by
      rw [hchain1, hsf, hchain2, hv, build_loop_absorb post rfl]
    rw [herr2] at hloope
    exact absurd hloope (by simp)
  · have hv : scan_value { build_loop (init_state a hs) pre with
        current_parameter := some p } p v =
        { build_loop (init_state a hs) pre with
          handlers := setH (build_loop (init_state a hs) pre).handlers p.handler
            ((getH (build_loop (init_state a hs) pre).handlers p.handler).parse_value v).2
          current_parameter := none } := by
      simp only [scan_value, hb, if_true]
    have hlen : p.handler < (build_loop (init_state a hs) pre).handlers.length := by
      by_contra hge
      rw [getH_of_length_le (Nat.le_of_not_lt hge)] at h4
      simp [Param.requires_value] at h4
    rw [(build_state a hs (pre ++ sw :: v :: post)).1]
    rw [hchain1, hsf, hchain2, hv]
    have hnw := build_loop_no_write p.handler post
      { build_loop (init_state a hs) pre with
        handlers := setH (build_loop (init_state a hs) pre).handlers p.handler
          ((getH (build_loop (init_state a hs) pre).handlers p.handler).parse_value v).2
        current_parameter := none }
      (by
        intro tok ht
        show token_writes (build_loop (init_state a hs) pre).args.switch_map
          (build_loop (init_state a hs) pre).args.ext_switch_map p.handler tok = false
        rw [hmaps.1, hmaps.2.1]
        exact h5 tok ht)
      (no_pending_no_write rfl)
    rw [hnw]
    show getH (setH (build_loop (init_state a hs) pre).handlers p.handler
      ((getH (build_loop (init_state a hs) pre).handlers p.handler).parse_value v).2)
      p.handler = _
    rw [getH_setH_self _ hlen]

/-- C7 witness: with -p occurring twice, the port handler finally holds the
value parsed from the second occurrence. -/
theorem c7_last_occurrence_wins_witness :
    getH (c1_args.build c1_handlers
        (["-p".toList, "1".toList] ++ "-p".toList :: "2".toList ::
          ["x".toList, "y".toList])).handlers 0 =
      ((getH (build_loop (init_state c1_args c1_handlers)
        ["-p".toList, "1".toList]).handlers 0).parse_value ("2".toList)).2 :=
  c7_last_occurrence_wins c1_args c1_handlers ["-p".toList, "1".toList]
    ["x".toList, "y".toList] ("-p".toList) ("2".toList)
    { name := "port".toList, switch := some 'p', ext_switch := none, handler := 0 }
    (by decide) (by decide) (by decide) (by decide) (by decide) (by decide)

lemma lookupA_insertA_self {α β : Type} [DecidableEq α] (m : List (α × β)) (k : α) (v : β) :
    lookupA (insertA m k v) k = some v := by
  induction m with
  | nil => simp [insertA, lookupA]
  | cons kv rest ih =>
    obtain ⟨k1, v1⟩ := kv
    by_cases h : k1 = k
    · subst h
      simp [insertA, lookupA]
    · simp [insertA, lookupA, h, ih]

lemma lookupA_insertA_ne {α β : Type} [DecidableEq α] {k j : α} (m : List (α × β)) (v : β)
    (h : k ≠ j) : lookupA (insertA m k v) j = lookupA m j := by
  induction m with
  | nil => simp [insertA, lookupA, h]
  | cons kv rest ih =>
    obtain ⟨k1, v1⟩ := kv
    by_cases h2 : k1 = k
    · subst h2
      simp [insertA, lookupA, h]
    · simp [insertA, lookupA, h2, ih]

lemma fold_add_switch_short (c : Char) : ∀ (ss : List Switch)
    (m : List (Char × Switch) × List (Str × Switch)),
    (∀ sw ∈ ss, sw.switch ≠ some c) →
    lookupA (ss.foldl add_switch m).1 c = lookupA m.1 c := by
  intro ss
  induction ss with
  | nil => intro m _; rfl
  | cons sw rest ih =>
    intro m h
    rw [List.foldl_cons]
    rw [ih (add_switch m sw) (fun s hs => h s (List.mem_cons_of_mem _ hs))]
    rcases hsw : sw.switch with _ | c1
    · simp [add_switch, hsw]
    · have hne : c1 ≠ c := by
        intro he
        exact (h sw (List.mem_cons_self sw rest)) (by rw [hsw, he])
      simp only [add_switch, hsw]
      exact lookupA_insertA_ne _ _ hne

lemma fold_add_switch_ext (k : Str) : ∀ (ss : List Switch)
    (m : List (Char × Switch) × List (Str × Switch)),
    (∀ sw ∈ ss, sw.ext_switch ≠ some k) →
    lookupA (ss.foldl add_switch m).2 k = lookupA m.2 k := by
  intro ss
  induction ss with
  | nil => intro m _; rfl
  | cons sw rest ih =>
    intro m h
    rw [List.foldl_cons]
    rw [ih (add_switch m sw) (fun s hs => h s (List.mem_cons_of_mem _ hs))]
    rcases hsw : sw.ext_switch with _ | k1
    · simp [add_switch, hsw]
    · have hne : k1 ≠ k := by
        intro he
        exact (h sw (List.mem_cons_self sw rest)) (by rw [hsw, he])
      simp only [add_switch, hsw]
      exact lookupA_insertA_ne _ _ hne

lemma new_short_last (nm : Str) (names : Option (List Str)) (pre mid post : List Switch)
    (s1 s2 : Switch) (c : Char) (hs2 : s2.switch = some c)
    (hpost : ∀ sw ∈ post, sw.switch ≠ some c) :
    lookupA (Arguments.new nm (pre ++ s1 :: mid ++ s2 :: post) names).switch_map c =
      some s2 := by
  show lookupA ((pre ++ s1 :: mid ++ s2 :: post).foldl add_switch ([], [])).1 c = some s2
  rw [List.foldl_append, List.foldl_cons, List.foldl_append, List.foldl_cons]
  rw [fold_add_switch_short c post _ hpost]
  simp only [add_switch, hs2]
  exact lookupA_insertA_self _ _ _

lemma new_ext_last (nm : Str) (names : Option (List Str)) (pre mid post : List Switch)
    (s1 s2 : Switch) (k : Str) (hs2 : s2.ext_switch = some k)
    (hpost : ∀ sw ∈ post, sw.ext_switch ≠ some k) :
    lookupA (Arguments.new nm (pre ++ s1 :: mid ++ s2 :: post) names).ext_switch_map k =
      some s2 := by
  show lookupA ((pre ++ s1 :: mid ++ s2 :: post).foldl add_switch ([], [])).2 k = some s2
  rw [List.foldl_append, List.foldl_cons, List.foldl_append, List.foldl_cons]
  rw [fold_add_switch_ext k post _ hpost]
  simp only [add_switch, hs2]
  exact lookupA_insertA_self _ _ _

/-- C8: when two registered switches declare the same short key (or the
same long key), the lookup mapping built by Arguments::new holds the later
switch in list order, a token with that key resolves to the later switch,
and the earlier switch is silently dropped from that mapping. -/
theorem c8_collision_last_write_wins :
    (∀ (nm : Str) (names : Option (List Str)) (pre mid post : List Switch)
      (s1 s2 : Switch) (c : Char),
      s1.switch = some c → s2.switch = some c →
      (∀ sw ∈ post, sw.switch ≠ some c) →
      lookupA (Arguments.new nm (pre ++ s1 :: mid ++ s2 :: post) names).switch_map c =
        some s2) ∧
    (∀ (nm : Str) (names : Option (List Str)) (pre mid post : List Switch)
      (s1 s2 : Switch) (k : Str),
      s1.ext_switch = some k → s2.ext_switch = some k →
      (∀ sw ∈ post, sw.ext_switch ≠ some k) →
      lookupA (Arguments.new nm (pre ++ s1 :: mid ++ s2 :: post) names).ext_switch_map k =
        some s2) ∧
    (∀ (nm : Str) (names : Option (List Str)) (pre mid post : List Switch)
      (s1 s2 : Switch) (c : Char), c ≠ '-' →
      s1.switch = some c → s2.switch = some c →
      (∀ sw ∈ post, sw.switch ≠ some c) →
      token_lookup (Arguments.new nm (pre ++ s1 :: mid ++ s2 :: post) names).switch_map
        (Arguments.new nm (pre ++ s1 :: mid ++ s2 :: post) names).ext_switch_map
        ['-', c] = some s2) := by
  refine ⟨?_, ?_, ?_⟩
  · intro nm names pre mid post s1 s2 c hs1 hs2 hpost
    exact new_short_last nm names pre mid post s1 s2 c hs2 hpost
  · intro nm names pre mid post s1 s2 k hs1 hs2 hpost
    exact new_ext_last nm names pre mid post s1 s2 k hs2 hpost
  · intro nm names pre mid post s1 s2 c hdash hs1 hs2 hpost
    have h1 := new_short_last nm names pre mid post s1 s2 c hs2 hpost
    have ht : token_lookup
        (Arguments.new nm (pre ++ s1 :: mid ++ s2 :: post) names).switch_map
        (Arguments.new nm (pre ++ s1 :: mid ++ s2 :: post) names).ext_switch_map ['-', c] =
        lookupA (Arguments.new nm (pre ++ s1 :: mid ++ s2 :: post) names).switch_map c := by
      simp [token_lookup, hdash]
    rw [ht]
    exact h1

/-- C8 witness: two switches sharing the short key x; lookup finds the
second one. -/
theorem c8_collision_last_write_wins_witness :
    lookupA (Arguments.new ("prog".toList) [c8_sw1, c8_sw2] none).switch_map 'x' =
      some c8_sw2 :=
  c8_collision_last_write_wins.1 ("prog".toList) none [] [] [] c8_sw1 c8_sw2 'x'
    rfl rfl (by simp)
